import Mathlib

/-!
Verification of the sideswap_manager worker (`src/sideswap_manager/src/worker.rs`)
against its natural-language specification.  The worker's state, its command
handlers and its server-event processing are shallowly embedded as pure Lean
functions; external collaborators (wallet, market server, persistence) are
modelled as oracles whose answers are passed in as `Ports`, and every side
effect that matters for ordering claims is recorded in an explicit `Effect`
trace in the order the source issues it.
-/

namespace SideswapManager

/-! ### Identifier types

Opaque 32-byte identifiers (`Txid`, `AssetId`, `OrderId`, ...) are modelled as
naturals; only equality of them is ever used by the worker. -/

abbrev Txid := Nat
abbrev AssetId := Nat
abbrev OrderId := Nat
abbrev QuoteId := Nat
abbrev ClientId := Nat
abbrev Ticker := Nat
abbrev AssetPrecision := Nat

/-! ### Association-list model of `BTreeMap`

`BTreeMap` keeps distinct keys; `lookupMap`/`insertMap`/`eraseKey` model
lookup, insert-or-replace and key removal.  `maxKeyEntry` models
`BTreeMap::last_key_value` (the entry with the greatest key). -/

def lookupMap {α : Type} : List (Nat × α) → Nat → Option α
  | [], _ => none
  | e :: rest, k => if e.1 = k then some e.2 else lookupMap rest k

def eraseKey {α : Type} : List (Nat × α) → Nat → List (Nat × α)
  | [], _ => []
  | e :: rest, k => if e.1 = k then eraseKey rest k else e :: eraseKey rest k

def insertMap {α : Type} (m : List (Nat × α)) (k : Nat) (v : α) : List (Nat × α) :=
  (k, v) :: eraseKey m k

def NodupKeys {α : Type} (m : List (Nat × α)) : Prop :=
  (m.map (fun e => e.1)).Nodup

def maxEntryAux {α : Type} (e : Nat × α) : List (Nat × α) → Nat × α
  | [] => e
  | e' :: rest => if e.1 ≤ e'.1 then maxEntryAux e' rest else maxEntryAux e rest

def maxKeyEntry {α : Type} : List (Nat × α) → Option (Nat × α)
  | [] => none
  | e :: rest => some (maxEntryAux e rest)

instance {α : Type} (m : List (Nat × α)) : Decidable (NodupKeys m) := by
  unfold NodupKeys; infer_instance

theorem lookupMap_insert_self {α : Type} (m : List (Nat × α)) (k : Nat) (v : α) :
    lookupMap (insertMap m k v) k = some v := by
  simp [insertMap, lookupMap]

theorem lookupMap_eraseKey_ne {α : Type} (m : List (Nat × α)) (k k' : Nat) (h : k' ≠ k) :
    lookupMap (eraseKey m k) k' = lookupMap m k' := by
  induction m with
  | nil => rfl
  | cons e rest ih =>
    by_cases he : e.1 = k
    · have hne : e.1 ≠ k' := by omega
      simp only [eraseKey, if_pos he, lookupMap, if_neg hne]
      exact ih
    · simp only [eraseKey, if_neg he, lookupMap]
      by_cases he' : e.1 = k'
      · simp only [if_pos he']
      · simp only [if_neg he']
        exact ih

theorem lookupMap_insert_ne {α : Type} (m : List (Nat × α)) (k k' : Nat) (v : α)
    (h : k' ≠ k) : lookupMap (insertMap m k v) k' = lookupMap m k' := by
  simp only [insertMap, lookupMap]
  rw [if_neg (by omega)]
  exact lookupMap_eraseKey_ne m k k' h

theorem mem_of_lookupMap {α : Type} {m : List (Nat × α)} {k : Nat} {v : α}
    (h : lookupMap m k = some v) : (k, v) ∈ m := by
  induction m with
  | nil => simp [lookupMap] at h
  | cons e rest ih =>
    by_cases he : e.1 = k
    · simp only [lookupMap, if_pos he] at h
      cases h
      subst he
      simp
    · simp only [lookupMap, if_neg he] at h
      exact List.mem_cons_of_mem _ (ih h)

theorem lookupMap_of_mem {α : Type} {m : List (Nat × α)} {k : Nat} {v : α}
    (hnd : NodupKeys m) (h : (k, v) ∈ m) : lookupMap m k = some v := by
  induction m with
  | nil => simp at h
  | cons e rest ih =>
    simp only [NodupKeys, List.map_cons, List.nodup_cons] at hnd
    rcases List.mem_cons.mp h with h1 | h1
    · cases h1
      simp [lookupMap]
    · have hne : e.1 ≠ k := by
        intro hk
        exact hnd.1 (by
          rw [hk]
          exact List.mem_map.mpr ⟨(k, v), h1, rfl⟩)
      simp only [lookupMap, if_neg hne]
      exact ih hnd.2 h1

theorem lookupMap_eq_none {α : Type} {m : List (Nat × α)} {k : Nat}
    (h : ∀ e ∈ m, e.1 ≠ k) : lookupMap m k = none := by
  induction m with
  | nil => rfl
  | cons e rest ih =>
    simp only [lookupMap, if_neg (h e (List.mem_cons_self e rest))]
    exact ih (fun e' he' => h e' (List.mem_cons_of_mem _ he'))

theorem maxEntryAux_mem {α : Type} (m : List (Nat × α)) :
    ∀ e : Nat × α, maxEntryAux e m ∈ e :: m := by
  induction m with
  | nil => intro e; simp [maxEntryAux]
  | cons hd rest ih =>
    intro e
    simp only [maxEntryAux]
    by_cases hle : e.1 ≤ hd.1
    · rw [if_pos hle]
      rcases List.mem_cons.mp (ih hd) with h1 | h1
      · rw [h1]; simp
      · exact List.mem_cons_of_mem _ (List.mem_cons_of_mem _ h1)
    · rw [if_neg hle]
      rcases List.mem_cons.mp (ih e) with h1 | h1
      · rw [h1]; simp
      · exact List.mem_cons_of_mem _ (List.mem_cons_of_mem _ h1)

theorem maxEntryAux_ubound {α : Type} (m : List (Nat × α)) :
    ∀ e : Nat × α, ∀ x ∈ e :: m, x.1 ≤ (maxEntryAux e m).1 := by
  induction m with
  | nil => intro e x hx; simp at hx; rw [hx]; simp [maxEntryAux]
  | cons hd rest ih =>
    intro e x hx
    simp only [maxEntryAux]
    rcases List.mem_cons.mp hx with h1 | h1
    · subst h1
      by_cases hle : x.1 ≤ hd.1
      · rw [if_pos hle]
        have := ih hd hd (List.mem_cons_self hd rest)
        omega
      · rw [if_neg hle]
        exact ih x x (List.mem_cons_self x rest)
    · rcases List.mem_cons.mp h1 with h2 | h2
      · subst h2
        by_cases hle : e.1 ≤ x.1
        · rw [if_pos hle]
          exact ih x x (List.mem_cons_self x rest)
        · rw [if_neg hle]
          have := ih e e (List.mem_cons_self e rest)
          omega
      · by_cases hle : e.1 ≤ hd.1
        · rw [if_pos hle]
          exact ih hd x (List.mem_cons_of_mem _ h2)
        · rw [if_neg hle]
          exact ih e x (List.mem_cons_of_mem _ h2)

theorem maxKeyEntry_mem {α : Type} {m : List (Nat × α)} {e : Nat × α}
    (h : maxKeyEntry m = some e) : e ∈ m := by
  cases m with
  | nil => simp [maxKeyEntry] at h
  | cons hd rest =>
    simp only [maxKeyEntry, Option.some.injEq] at h
    rw [← h]
    exact maxEntryAux_mem rest hd

theorem maxKeyEntry_ubound {α : Type} {m : List (Nat × α)} {e : Nat × α}
    (h : maxKeyEntry m = some e) : ∀ e' ∈ m, e'.1 ≤ e.1 := by
  cases m with
  | nil => simp [maxKeyEntry] at h
  | cons hd rest =>
    simp only [maxKeyEntry, Option.some.injEq] at h
    intro e' he'
    rw [← h]
    exact maxEntryAux_ubound rest hd e' he'

theorem maxKeyEntry_cons_isSome {α : Type} (e : Nat × α) (m : List (Nat × α)) :
    ∃ x, maxKeyEntry (e :: m) = some x :=
  ⟨maxEntryAux e m, rfl⟩

theorem eraseKey_sublist {α : Type} (m : List (Nat × α)) (k : Nat) :
    (eraseKey m k).Sublist m := by
  induction m with
  | nil => simp [eraseKey]
  | cons e rest ih =>
    by_cases he : e.1 = k
    · simp only [eraseKey, if_pos he]
      exact ih.cons e
    · simp only [eraseKey, if_neg he]
      exact ih.cons₂ e

theorem mem_of_mem_eraseKey {α : Type} {m : List (Nat × α)} {k : Nat} {e : Nat × α}
    (h : e ∈ eraseKey m k) : e ∈ m :=
  (eraseKey_sublist m k).subset h

theorem eraseKey_key_ne {α : Type} {m : List (Nat × α)} {k : Nat} {e : Nat × α}
    (h : e ∈ eraseKey m k) : e.1 ≠ k := by
  induction m with
  | nil => simp [eraseKey] at h
  | cons hd rest ih =>
    by_cases hh : hd.1 = k
    · simp only [eraseKey, if_pos hh] at h
      exact ih h
    · simp only [eraseKey, if_neg hh] at h
      rcases List.mem_cons.mp h with h1 | h1
      · cases h1; exact hh
      · exact ih h1

theorem nodupKeys_eraseKey {α : Type} {m : List (Nat × α)} (hnd : NodupKeys m)
    (k : Nat) : NodupKeys (eraseKey m k) :=
  List.Nodup.sublist ((eraseKey_sublist m k).map (fun e => e.1)) hnd

theorem nodupKeys_insertMap {α : Type} {m : List (Nat × α)} (hnd : NodupKeys m)
    (k : Nat) (v : α) : NodupKeys (insertMap m k v) := by
  simp only [insertMap, NodupKeys, List.map_cons, List.nodup_cons]
  constructor
  · intro hmem
    rcases List.mem_map.mp hmem with ⟨e, he, hke⟩
    exact eraseKey_key_ne he hke
  · exact nodupKeys_eraseKey hnd k

theorem lookupMap_filter {α : Type} {m : List (Nat × α)} (hnd : NodupKeys m)
    (p : Nat × α → Bool) (k : Nat) (v : α) :
    lookupMap (m.filter p) k = some v ↔ lookupMap m k = some v ∧ p (k, v) = true := by
  constructor
  · intro h
    have hmem := mem_of_lookupMap h
    have hm : (k, v) ∈ m := (List.mem_filter.mp hmem).1
    exact ⟨lookupMap_of_mem hnd hm, (List.mem_filter.mp hmem).2⟩
  · rintro ⟨h1, h2⟩
    have hm := mem_of_lookupMap h1
    have hnd' : NodupKeys (m.filter p) :=
      List.Nodup.sublist ((List.filter_sublist m).map (fun e => e.1)) hnd
    exact lookupMap_of_mem hnd' (List.mem_filter.mpr ⟨hm, h2⟩)

theorem lookupMap_filter_none {α : Type} {m : List (Nat × α)} (hnd : NodupKeys m)
    (p : Nat × α → Bool) (k : Nat) (v : α) (h1 : lookupMap m k = some v)
    (h2 : p (k, v) = false) : lookupMap (m.filter p) k = none := by
  apply lookupMap_eq_none
  intro e he hk
  have hmem := List.mem_filter.mp he
  have : e = (k, v) := by
    have h3 := lookupMap_of_mem hnd hmem.1
    rw [show e = (e.1, e.2) from rfl, hk] at h3 ⊢
    rw [h1] at h3
    cases h3
    rfl
  rw [this] at hmem
  rw [h2] at hmem
  simp at hmem

instance {ε α : Type} [DecidableEq ε] [DecidableEq α] : DecidableEq (Except ε α) := by
  intro x y
  cases x <;> cases y
  case error.error a b =>
    by_cases h : a = b
    · exact isTrue (by rw [h])
    · exact isFalse (by intro hc; cases hc; exact h rfl)
  case ok.ok a b =>
    by_cases h : a = b
    · exact isTrue (by rw [h])
    · exact isFalse (by intro hc; cases hc; exact h rfl)
  case error.ok a b => exact isFalse (by intro hc; cases hc)
  case ok.error a b => exact isFalse (by intro hc; cases hc)

/-! ### Data model (worker.rs and its api/model types) -/

inductive AssetType where
  | base
  | quote
deriving DecidableEq

inductive TradeDir where
  | sell
  | buy
deriving DecidableEq

structure Outpoint where
  txid : Txid
  vout : Nat
deriving DecidableEq

structure TxInput where
  previous_output : Outpoint
deriving DecidableEq

/-- `elements::Transaction`, reduced to the parts the worker reads: its txid,
its inputs and the per-asset fee totals read by `fee_in`. -/
structure Transaction where
  txid : Txid
  input : List TxInput
  fees : List (AssetId × Nat)
deriving DecidableEq

/-- Modelled from the spec: `fee_in(policy_asset)` of `sideswap_types::utxo_ext`
(not under `src/`) reads the transaction's fee denominated in the given asset. -/
def Transaction.fee_in (tx : Transaction) (asset : AssetId) : Nat :=
  (lookupMap tx.fees asset).getD 0

structure Utxo where
  outpoint : Outpoint
  asset : AssetId
  value : Nat
deriving DecidableEq

/-- `sideswap_dealer::utxo_data::UtxoData`, reduced to the UTXO set the worker
reads through `utxos()`. -/
structure UtxoData where
  utxos : List Utxo
deriving DecidableEq

/-- A PSET, reduced to the txid of the transaction it contains and a signing
flag. -/
structure Pset where
  txid : Txid
  signed : Bool
deriving DecidableEq

/-- Modelled from the spec: `UtxoData::sign_pset` (not under `src/`) signs the
PSET, leaving the contained transaction (hence its txid) unchanged. -/
def sign_pset (_utxo_data : UtxoData) (pset : Pset) : Pset :=
  { pset with signed := true }

structure Quote where
  txid : Txid
  pset : Pset
  expires_at : Nat
  note : String
deriving DecidableEq

/-- `Quote::ttl_valid`: `Instant::now() < self.expires_at`, with the clock
passed explicitly. -/
def Quote.ttl_valid (q : Quote) (now : Nat) : Bool :=
  now < q.expires_at

structure CreatedTx where
  tx : Transaction
  note : String
deriving DecidableEq

/-- `models::MonitoredTx` as constructed and stored by `worker.rs`. -/
structure MonitoredTx where
  txid : Txid
  description : Option String
  user_note : Option String
deriving DecidableEq

/-- `models::Address` (`ind`, `address`, `user_note`). -/
structure Address where
  ind : Nat
  address : String
  user_note : Option String
deriving DecidableEq

/-- `PegStatus` from `sideswap_api`: its `order_id` plus the rest of the
payload, which the worker only copies around. -/
structure PegStatus where
  order_id : OrderId
  payload : Nat
deriving DecidableEq

structure MarketInfo where
  base : AssetId
  quote : AssetId
  fee_asset : AssetType
deriving DecidableEq

abbrev Balances := List (Ticker × Rat)

inductive Notif where
  | pegStatus (status : PegStatus)
  | balances (balances : Balances)
deriving DecidableEq

/-- `ws_req_sender::Error` (`WsError` payloads). -/
inductive WsFail where
  | disconnected
  | timeout
  | rejected (text : String)
deriving DecidableEq

/-- `error::Error`, the worker's client-visible error kinds (spec §7). -/
inductive Error where
  | UnknownTicker (ticker : Ticker)
  | InvalidAssetAmount (amount : Rat) (precision : AssetPrecision)
  | GapLimit
  | NoMarket
  | NoQuote
  | QuoteExpired
  | QuoteError (msg : String)
  | NotEnoughAmount (asset_id : AssetId) (required : Nat) (available : Nat)
  | NoCreatedTx
  | NoUtxos
  | UtxoCheckFailed (text : String)
  | Wallet (msg : String)
  | WsError (e : WsFail)
deriving DecidableEq

/-- Every externally visible side effect the embedded handlers can issue, in
issue order.  Persistence writes, wallet commands and server requests each get
one constructor; `memAddMonitoredTx` additionally marks the in-memory insert
done by `new_monitored_tx`. -/
inductive Effect where
  | dbAddMonitoredTx (mtx : MonitoredTx)
  | memAddMonitoredTx (mtx : MonitoredTx)
  | dbAddAddress (addr : Address)
  | serverCheckOutpoints (outpoints : List Outpoint)
  | serverBroadcastTx (txid : Txid)
  | walletBroadcastTx (txid : Txid)
  | serverStartQuotes
  | serverGetQuote (quote_id : QuoteId)
  | serverTakerSign (quote_id : QuoteId)
  | serverListMarkets
  | serverPegStatusReq (order_id : OrderId)
  | notif (client : ClientId) (n : Notif)
  | storePegStatus (status : PegStatus)
deriving DecidableEq

/-- `TickerLoader`, reduced to the three lookups the worker makes. -/
structure TickerLoader where
  has_ticker : Ticker → Bool
  asset_id : Ticker → AssetId
  precision : Ticker → AssetPrecision

/-- The worker's mutable state (`struct Data` of `worker.rs`), minus the I/O
handles which are modelled as `Ports`. -/
structure WorkerData where
  policy_asset : AssetId
  ticker_loader : TickerLoader
  markets : List MarketInfo
  clients : List ClientId
  last_balances : Option Balances
  utxo_data : Option UtxoData
  pegs : List OrderId
  peg_statuses : List (OrderId × PegStatus)
  monitored_txs : List (Txid × MonitoredTx)
  quotes : List (QuoteId × Quote)
  created_txs : List (Txid × CreatedTx)
  addresses : List (Nat × Address)

/-! ### Server events and api types -/

/-- `mkt::QuoteStatus` of the quote notification. -/
inductive MktQuoteStatus where
  | success (quote_id : QuoteId) (base_amount quote_amount server_fee fixed_fee ttl : Nat)
  | lowBalance (base_amount quote_amount server_fee fixed_fee available : Nat)
  | error (error_msg : String)
deriving DecidableEq

structure MktQuoteNotif where
  quote_sub_id : Nat
  status : MktQuoteStatus
deriving DecidableEq

/-- `mkt::Notification`, split into the variants the worker distinguishes. -/
inductive MktNotification where
  | marketAdded (market : MarketInfo)
  | marketRemoved (base : AssetId) (quote : AssetId)
  | quote (n : MktQuoteNotif)
  | other
deriving DecidableEq

/-- `WrappedResponse`: the server WS event stream as the coordinator sees it. -/
inductive WsEvent where
  | connected
  | disconnected
  | listMarketsResp (markets : List MarketInfo)
  | pegStatusResp (status : PegStatus)
  | otherResp
  | marketNotif (n : MktNotification)
  | pegStatusNotif (status : PegStatus)
  | otherNotif
deriving DecidableEq

structure NewAddrResp where
  index : Nat
  address : String
deriving DecidableEq

structure ConvRecipient where
  address : String
  asset_id : AssetId
  amount : Nat
deriving DecidableEq

structure FetchedQuote where
  pset : Pset
  ttl : Nat
deriving DecidableEq

structure TakerSignResp where
  txid : Txid
deriving DecidableEq

/-- Oracles for the worker's external collaborators: each wallet / server /
persistence interaction that returns data is a field holding the answer the
collaborator would give; `events` is the timed server event stream drained
inside `GetQuote` (arrival instant, event). -/
structure Ports where
  newAddr : Bool → Option Nat → Except String NewAddrResp
  createTx : List ConvRecipient → Except String Transaction
  checkOutpoints : List Outpoint → Except String Unit
  serverBroadcast : Except String Txid
  walletBroadcast : Except String Txid
  startQuotes : Except Error Nat
  fetchQuote : QuoteId → Except Error FetchedQuote
  takerSign : QuoteId → Except Error TakerSignResp
  events : List (Nat × WsEvent)

/-! ### Client api requests/responses -/

structure NewAddressResp where
  index : Nat
  address : String
deriving DecidableEq

structure Recipient where
  address : String
  asset : Ticker
  amount : Rat
deriving DecidableEq

structure CreateTxResp where
  txid : Txid
  network_fee : Nat
deriving DecidableEq

structure SendTxReq where
  txid : Txid
  user_note : Option String
deriving DecidableEq

inductive BroadcastStatus where
  | success
  | error (error_msg : String)
deriving DecidableEq

structure SendTxResp where
  res_wallet : BroadcastStatus
  res_server : BroadcastStatus
deriving DecidableEq

structure GetQuoteReq where
  send_asset : Ticker
  recv_asset : Ticker
  send_amount : Rat
  receive_address : String
deriving DecidableEq

structure GetQuoteResp where
  quote_id : QuoteId
  recv_amount : Rat
  ttl : Nat
  txid : Txid
deriving DecidableEq

structure AcceptQuoteReq where
  quote_id : QuoteId
  user_note : Option String
deriving DecidableEq

structure AcceptQuoteResp where
  txid : Txid
deriving DecidableEq

/-! ### Amount conversion -/

/-- Modelled from the spec: `asset_int_amount_` of `sideswap_common::types`
(not under `src/`) converts a float amount to integer units at decimal
precision `p`; float amounts are modelled as exact rationals and the scaled
amount is truncated (spec S2 sends `0.005` at precision 2 to integer `0`). -/
def asset_int_amount_ (amount : Rat) (asset_precision : AssetPrecision) : Nat :=
  (⌊amount * ((10 : Rat) ^ asset_precision)⌋).toNat

/-- Modelled from the spec: `asset_float_amount_` of `sideswap_common::types`
(not under `src/`) converts integer units back to a float amount. -/
def asset_float_amount_ (amount : Nat) (asset_precision : AssetPrecision) : Rat :=
  (amount : Rat) / ((10 : Rat) ^ asset_precision)

/-- `try_convert_asset_amount` (worker.rs:180-188): accept the amount exactly
when the integer conversion round-trips. -/
def try_convert_asset_amount (amount : Rat) (asset_precision : AssetPrecision) :
    Except Error Nat :=
  let int_amount := asset_int_amount_ amount asset_precision
  let float_amount := asset_float_amount_ int_amount asset_precision
  if float_amount = amount then .ok int_amount
  else .error (.InvalidAssetAmount amount asset_precision)

structure Asset where
  asset_id : AssetId
  precision : AssetPrecision
deriving DecidableEq

/-- `try_get_asset` (worker.rs:169-178). -/
def try_get_asset (ticker_loader : TickerLoader) (ticker : Ticker) : Except Error Asset :=
  if ticker_loader.has_ticker ticker then
    .ok ⟨ticker_loader.asset_id ticker, ticker_loader.precision ticker⟩
  else .error (.UnknownTicker ticker)

/-! ### Notification fan-out and peg-status pipeline -/

/-- `send_notifs` (worker.rs:158-162): push the notification to every
connected client, in client-table order. -/
def send_notifs (data : WorkerData) (n : Notif) : List Effect :=
  data.clients.map (fun c => Effect.notif c n)

/-- `process_peg_status` (worker.rs:858-863): fan out first (when the order id
is a known peg), then store. -/
def process_peg_status (data : WorkerData) (status : PegStatus) :
    WorkerData × List Effect :=
  let fanout := if data.pegs.contains status.order_id
    then send_notifs data (Notif.pegStatus status) else []
  ({ data with peg_statuses := insertMap data.peg_statuses status.order_id status },
   fanout ++ [Effect.storePegStatus status])

/-- `process_market_notif` (worker.rs:865-890). -/
def process_market_notif (data : WorkerData) (n : MktNotification) : WorkerData :=
  match n with
  | .marketAdded market => { data with markets := data.markets ++ [market] }
  | .marketRemoved base quote =>
    { data with markets :=
        data.markets.filter (fun m => !(m.base == base && m.quote == quote)) }
  | .quote _ => data
  | .other => data

/-- `process_ws_connected` (worker.rs:807-821): request the market list and a
status refresh for every known peg. -/
def process_ws_connected (data : WorkerData) : WorkerData × List Effect :=
  (data, Effect.serverListMarkets :: data.pegs.map Effect.serverPegStatusReq)

/-- `process_ws_event` (worker.rs:892-932). -/
def process_ws_event (data : WorkerData) (event : WsEvent) : WorkerData × List Effect :=
  match event with
  | .connected => process_ws_connected data
  | .disconnected => (data, [])
  | .listMarketsResp markets => ({ data with markets := markets }, [])
  | .pegStatusResp status => process_peg_status data status
  | .otherResp => (data, [])
  | .pegStatusNotif status => process_peg_status data status
  | .marketNotif n => (process_market_notif data n, [])
  | .otherNotif => (data, [])

/-! ### Persistence helpers -/

/-- `new_monitored_tx` (worker.rs:207-214): write to the database, then insert
into the in-memory table. -/
def new_monitored_tx (monitored_txs : List (Txid × MonitoredTx)) (mtx : MonitoredTx) :
    List (Txid × MonitoredTx) × List Effect :=
  (insertMap monitored_txs mtx.txid mtx,
   [Effect.dbAddMonitoredTx mtx, Effect.memAddMonitoredTx mtx])

/-! ### NewAddress -/

def GAP_LIMIT : Nat := 20

/-- `first_unused_db` of `new_address`: highest persisted index plus one, `0`
when the address table is empty. -/
def db_first_unused (addresses : List (Nat × Address)) : Nat :=
  match maxKeyEntry addresses with
  | none => 0
  | some e => e.2.ind + 1

/-- `new_address` (worker.rs:237-264). -/
def new_address (ports : Ports) (data : WorkerData) (user_note : Option String) :
    Except Error NewAddressResp × WorkerData × List Effect :=
  match ports.newAddr false none with
  | .error e => (.error (.Wallet e), data, [])
  | .ok first =>
    let first_unused_wallet := first.index
    let first_unused_db := db_first_unused data.addresses
    let new_index := max first_unused_wallet first_unused_db
    if new_index - first_unused_wallet < GAP_LIMIT then
      match ports.newAddr false (some new_index) with
      | .error e => (.error (.Wallet e), data, [])
      | .ok second =>
        let addr : Address := ⟨new_index, second.address, user_note⟩
        (.ok ⟨new_index, second.address⟩,
         { data with addresses := insertMap data.addresses new_index addr },
         [Effect.dbAddAddress addr])
    else (.error .GapLimit, data, [])

/-! ### CreateTx -/

/-- Per-recipient translation inside `create_tx` (worker.rs:281-299): ticker
lookup then exact amount conversion. -/
def convert_recipient (ticker_loader : TickerLoader) (r : Recipient) :
    Except Error ConvRecipient :=
  if ticker_loader.has_ticker r.asset then
    match try_convert_asset_amount r.amount (ticker_loader.precision r.asset) with
    | .error e => .error e
    | .ok amount => .ok ⟨r.address, ticker_loader.asset_id r.asset, amount⟩
  else .error (.UnknownTicker r.asset)

/-- The recipient translation loop of `create_tx` (its
`collect::<Result<Vec<_>, Error>>()`): first failure wins. -/
def convert_recipients (ticker_loader : TickerLoader) :
    List Recipient → Except Error (List ConvRecipient)
  | [] => .ok []
  | r :: rest =>
    match convert_recipient ticker_loader r with
    | .error e => .error e
    | .ok c =>
      match convert_recipients ticker_loader rest with
      | .error e => .error e
      | .ok cs => .ok (c :: cs)

/-- The human-readable note `create_tx` builds from its recipients. -/
def create_tx_note (recipients : List Recipient) : String :=
  String.intercalate ", "
    (recipients.map (fun r =>
      "send " ++ toString r.amount ++ " " ++ toString r.asset ++ " to " ++ r.address))

/-- `create_tx` (worker.rs:266-316). -/
def create_tx (ports : Ports) (data : WorkerData) (recipients : List Recipient) :
    Except Error CreateTxResp × WorkerData :=
  let note := create_tx_note recipients
  match convert_recipients data.ticker_loader recipients with
  | .error e => (.error e, data)
  | .ok recs =>
    match ports.createTx recs with
    | .error e => (.error (.Wallet e), data)
    | .ok tx =>
      let txid := tx.txid
      let network_fee := tx.fee_in data.policy_asset
      (.ok ⟨txid, network_fee⟩,
       { data with created_txs := insertMap data.created_txs txid ⟨tx, note⟩ })

/-! ### SendTx -/

/-- The `Ok`/`Err` to `Success`/`Error{error_msg}` translation of the two
broadcast outcomes (worker.rs:382-394). -/
def broadcast_status (r : Except String Txid) : BroadcastStatus :=
  match r with
  | .ok _ => .success
  | .error err => .error err

/-- `send_tx` (worker.rs:318-400). -/
def send_tx (ports : Ports) (data : WorkerData) (req : SendTxReq) :
    Except Error SendTxResp × WorkerData × List Effect :=
  match lookupMap data.created_txs req.txid with
  | none => (.error .NoCreatedTx, data, [])
  | some created =>
    let outpoints := created.tx.input.map (fun i => i.previous_output)
    match data.utxo_data with
    | none => (.error (.UtxoCheckFailed "utxo_data is None"), data, [])
    | some utxo_data =>
      let remaining :=
        outpoints.filter (fun o => !((utxo_data.utxos.map Utxo.outpoint).contains o))
      if remaining.isEmpty then
        match ports.checkOutpoints outpoints with
        | .error err =>
          (.error (.UtxoCheckFailed err), data, [Effect.serverCheckOutpoints outpoints])
        | .ok _ =>
          let mtx : MonitoredTx := ⟨req.txid, some created.note, req.user_note⟩
          let ins := new_monitored_tx data.monitored_txs mtx
          let data1 := { data with monitored_txs := ins.1 }
          let res_server := ports.serverBroadcast
          let res_wallet := ports.walletBroadcast
          let data2 := { data1 with created_txs := [] }
          (.ok ⟨broadcast_status res_wallet, broadcast_status res_server⟩, data2,
           Effect.serverCheckOutpoints outpoints :: ins.2
             ++ [Effect.serverBroadcastTx req.txid, Effect.walletBroadcastTx req.txid])
      else (.error (.UtxoCheckFailed "Can\x27t find wallet UTXOs"), data, [])

/-! ### GetQuote -/

/-- The market search of `get_quote` (worker.rs:412-421): the pair must match
in either orientation. -/
def find_market (markets : List MarketInfo) (send_id recv_id : AssetId) :
    Option MarketInfo :=
  markets.find? (fun market =>
    (market.base == send_id && market.quote == recv_id)
      || (market.base == recv_id && market.quote == send_id))

/-- Outcome of the bounded wait for the quote notification (`enum QuoteStatus`
of worker.rs:216-220). -/
inductive QuoteWaitResult where
  | disconnected
  | timeout
  | quote (n : MktQuoteNotif)
deriving DecidableEq

/-- The per-event inspection of the wait loop (worker.rs:486-496): only
`Disconnected` and a `Quote` notification with the matching subscription id
end the wait. -/
def wait_status (quote_sub_id : Nat) : WsEvent → Option QuoteWaitResult
  | .connected => none
  | .disconnected => some .disconnected
  | .listMarketsResp _ => none
  | .pegStatusResp _ => none
  | .otherResp => none
  | .marketNotif (.quote n) =>
    if n.quote_sub_id = quote_sub_id then some (.quote n) else none
  | .marketNotif _ => none
  | .pegStatusNotif _ => none
  | .otherNotif => none

/-- The wait loop of `get_quote` (worker.rs:481-509): drain the timed server
event stream, handing every event to `process_ws_event`; an event arriving
past the deadline (or stream exhaustion) is the `timeout_at` elapse. -/
def quote_wait (quote_sub_id deadline : Nat) :
    WorkerData → List (Nat × WsEvent) → QuoteWaitResult × WorkerData × List Effect
  | data, [] => (.timeout, data, [])
  | data, (t, e) :: rest =>
    if t ≤ deadline then
      let pe := process_ws_event data e
      match wait_status quote_sub_id e with
      | some r => (r, pe.1, pe.2)
      | none =>
        let cont := quote_wait quote_sub_id deadline pe.1 rest
        (cont.1, cont.2.1, pe.2 ++ cont.2.2)
    else (.timeout, data, [])

/-- The note `get_quote` stores with a successful quote. -/
def swap_note (req : GetQuoteReq) (recv_amount : Rat) : String :=
  "swap " ++ toString req.send_amount ++ " " ++ toString req.send_asset
    ++ " for " ++ toString recv_amount ++ " " ++ toString req.recv_asset
    ++ " to " ++ req.receive_address

/-- The branch of `get_quote` on the received quote's status
(worker.rs:517-608): the fee table, the expected-send check, the PSET fetch,
signing and storing the quote. -/
def process_quote_status (ports : Ports) (now : Nat) (data : WorkerData)
    (req : GetQuoteReq) (send_asset recv_asset : Asset) (base_trade_dir : TradeDir)
    (fee_asset : AssetType) (send_amount : Nat) (status : MktQuoteStatus) :
    Except Error GetQuoteResp × WorkerData × List Effect :=
  match status with
  | .success quote_id base_amount quote_amount server_fee fixed_fee ttl =>
    let total_fee := server_fee + fixed_fee
    let amounts : Nat × Nat :=
      match base_trade_dir, fee_asset with
      | .sell, .base => (base_amount + total_fee, quote_amount)
      | .sell, .quote => (base_amount, quote_amount - total_fee)
      | .buy, .base => (quote_amount, base_amount - total_fee)
      | .buy, .quote => (quote_amount + total_fee, base_amount)
    let quote_send_amount := amounts.1
    if quote_send_amount = send_amount then
      let quote_recv_amount := asset_float_amount_ amounts.2 recv_asset.precision
      match ports.fetchQuote quote_id with
      | .error e => (.error e, data, [Effect.serverGetQuote quote_id])
      | .ok fetched =>
        let pset := fetched.pset
        let txid := pset.txid
        let expires_at := now + fetched.ttl
        match data.utxo_data with
        | none => (.error .NoUtxos, data, [Effect.serverGetQuote quote_id])
        | some utxo_data =>
          let signed := sign_pset utxo_data pset
          let note := swap_note req quote_recv_amount
          (.ok ⟨quote_id, quote_recv_amount, ttl, txid⟩,
           { data with quotes :=
               insertMap data.quotes quote_id ⟨txid, signed, expires_at, note⟩ },
           [Effect.serverGetQuote quote_id])
    else
      (.error (.NotEnoughAmount send_asset.asset_id send_amount quote_send_amount),
       data, [])
  | .lowBalance _ _ _ _ available =>
    (.error (.NotEnoughAmount send_asset.asset_id send_amount available), data, [])
  | .error error_msg => (.error (.QuoteError error_msg), data, [])

/-- `get_quote` (worker.rs:402-609). -/
def get_quote (ports : Ports) (now : Nat) (data : WorkerData) (req : GetQuoteReq) :
    Except Error GetQuoteResp × WorkerData × List Effect :=
  match try_get_asset data.ticker_loader req.send_asset with
  | .error e => (.error e, data, [])
  | .ok send_asset =>
    match try_get_asset data.ticker_loader req.recv_asset with
    | .error e => (.error e, data, [])
    | .ok recv_asset =>
      match find_market data.markets send_asset.asset_id recv_asset.asset_id with
      | none => (.error .NoMarket, data, [])
      | some market =>
        let fee_asset := market.fee_asset
        let asset_type :=
          if market.base = send_asset.asset_id then AssetType.base else AssetType.quote
        let base_trade_dir :=
          match asset_type with
          | AssetType.base => TradeDir.sell
          | AssetType.quote => TradeDir.buy
        match try_convert_asset_amount req.send_amount send_asset.precision with
        | .error e => (.error e, data, [])
        | .ok send_amount =>
          match ports.newAddr true none with
          | .error e => (.error (.Wallet e), data, [])
          | .ok _change =>
            match data.utxo_data with
            | none => (.error .NoUtxos, data, [])
            | some utxo_data =>
              let utxos := utxo_data.utxos.filter
                (fun u => u.asset == send_asset.asset_id)
              let total := (utxos.map Utxo.value).sum
              if send_amount ≤ total then
                match ports.startQuotes with
                | .error e => (.error e, data, [Effect.serverStartQuotes])
                | .ok quote_sub_id =>
                  let deadline := now + 15
                  let waited := quote_wait quote_sub_id deadline data ports.events
                  match waited.1 with
                  | .disconnected =>
                    (.error (.WsError .disconnected), waited.2.1,
                     Effect.serverStartQuotes :: waited.2.2)
                  | .timeout =>
                    (.error (.WsError .timeout), waited.2.1,
                     Effect.serverStartQuotes :: waited.2.2)
                  | .quote n =>
                    let res := process_quote_status ports now waited.2.1 req
                      send_asset recv_asset base_trade_dir fee_asset send_amount n.status
                    (res.1, res.2.1, Effect.serverStartQuotes :: (waited.2.2 ++ res.2.2))
              else
                (.error (.NotEnoughAmount send_asset.asset_id send_amount total),
                 data, [])

/-! ### AcceptQuote -/

/-- `accept_quote` (worker.rs:611-646). -/
def accept_quote (ports : Ports) (now : Nat) (data : WorkerData)
    (req : AcceptQuoteReq) : Except Error AcceptQuoteResp × WorkerData × List Effect :=
  match lookupMap data.quotes req.quote_id with
  | none => (.error .NoQuote, data, [])
  | some quote =>
    if quote.ttl_valid now then
      let mtx : MonitoredTx := ⟨quote.txid, some quote.note, req.user_note⟩
      let ins := new_monitored_tx data.monitored_txs mtx
      let data1 := { data with monitored_txs := ins.1 }
      match ports.takerSign req.quote_id with
      | .error e => (.error e, data1, ins.2 ++ [Effect.serverTakerSign req.quote_id])
      | .ok resp =>
        (.ok ⟨resp.txid⟩, data1, ins.2 ++ [Effect.serverTakerSign req.quote_id])
    else (.error .QuoteExpired, data, [])

/-! ### Coordinator quote TTL sweep -/

/-- The per-cycle sweep of the coordinator loop (worker.rs:1049):
`quotes.retain(|_, quote| quote.ttl_valid())`. -/
def ttl_sweep (now : Nat) (data : WorkerData) : WorkerData :=
  { data with quotes := data.quotes.filter (fun e => e.2.ttl_valid now) }

/-! ### Concrete scenario used by the witnesses -/

namespace Scn

def tl : TickerLoader :=
  ⟨fun t => t == 1 || t == 2, fun t => t + 100, fun _ => 2⟩

def utxos : UtxoData :=
  ⟨[⟨⟨500, 0⟩, 101, 2000⟩, ⟨⟨501, 1⟩, 102, 50⟩]⟩

def data : WorkerData where
  policy_asset := 999
  ticker_loader := tl
  markets := [⟨101, 102, AssetType.base⟩]
  clients := [3, 4]
  last_balances := none
  utxo_data := some utxos
  pegs := [11]
  peg_statuses := []
  monitored_txs := []
  quotes := [(7, ⟨81, ⟨81, true⟩, 100, "q"⟩)]
  created_txs := [(55, ⟨⟨55, [⟨⟨500, 0⟩⟩], [(999, 25)]⟩, "note55"⟩)]
  addresses := [(0, ⟨0, "a0", none⟩), (1, ⟨1, "a1", none⟩)]

/-- `Scn.data` with a single persisted address at index 30 (for the gap-limit
witness). -/
def data30 : WorkerData :=
  { data with addresses := [(30, ⟨30, "a30", none⟩)] }

def ports : Ports where
  newAddr := fun _change idx => .ok ⟨idx.getD 2, "addr"⟩
  createTx := fun _ => .ok ⟨60, [], []⟩
  checkOutpoints := fun _ => .ok ()
  serverBroadcast := .error "x"
  walletBroadcast := .ok 55
  startQuotes := .ok 77
  fetchQuote := fun _ => .ok ⟨⟨41, false⟩, 30⟩
  takerSign := fun _ => .ok ⟨81⟩
  events := []

/-- `Scn.ports` with a wallet whose first-unused index is 10 (ahead of the
persisted table). -/
def portsW10 : Ports :=
  { ports with newAddr := fun _change idx => .ok ⟨idx.getD 10, "w10"⟩ }

end Scn

/-! ### Claim theorems -/

/-- C5: for every float amount `a` and precision `p`, the conversion used by
`CreateTx` and `GetQuote` accepts `a` (yielding `asset_int_amount_ a p`) iff
the round-trip `asset_float_amount_ (asset_int_amount_ a p) p = a` holds
exactly; otherwise the command fails with `InvalidAssetAmount a p`, and both
command paths go through the same `try_convert_asset_amount`. -/
theorem C5_exact_amount_conversion (a : Rat) (p : AssetPrecision) :
    ((∃ n, try_convert_asset_amount a p = .ok n) ↔
       asset_float_amount_ (asset_int_amount_ a p) p = a)
    ∧ (asset_float_amount_ (asset_int_amount_ a p) p = a →
       try_convert_asset_amount a p = .ok (asset_int_amount_ a p))
    ∧ (asset_float_amount_ (asset_int_amount_ a p) p ≠ a →
       try_convert_asset_amount a p = .error (.InvalidAssetAmount a p))
    ∧ (∀ (ports : Ports) (data : WorkerData) (addr : String) (t : Ticker),
       data.ticker_loader.has_ticker t = true →
       data.ticker_loader.precision t = p →
       asset_float_amount_ (asset_int_amount_ a p) p ≠ a →
       (create_tx ports data [⟨addr, t, a⟩]).1 = .error (.InvalidAssetAmount a p))
    ∧ (∀ (ports : Ports) (now : Nat) (data : WorkerData) (req : GetQuoteReq)
       (sa ra : Asset) (market : MarketInfo),
       try_get_asset data.ticker_loader req.send_asset = .ok sa →
       try_get_asset data.ticker_loader req.recv_asset = .ok ra →
       find_market data.markets sa.asset_id ra.asset_id = some market →
       req.send_amount = a → sa.precision = p →
       asset_float_amount_ (asset_int_amount_ a p) p ≠ a →
       (get_quote ports now data req).1 = .error (.InvalidAssetAmount a p)) := by
  have herr : asset_float_amount_ (asset_int_amount_ a p) p ≠ a →
      try_convert_asset_amount a p = .error (.InvalidAssetAmount a p) := by
    intro hrt
    simp only [try_convert_asset_amount, if_neg hrt]
  refine ⟨⟨?_, ?_⟩, ?_, herr, ?_, ?_⟩
  · rintro ⟨n, hn⟩
    by_cases hrt : asset_float_amount_ (asset_int_amount_ a p) p = a
    · exact hrt
    · rw [herr hrt] at hn
      cases hn
  · intro hrt
    exact ⟨asset_int_amount_ a p, by simp only [try_convert_asset_amount, if_pos hrt]⟩
  · intro hrt
    simp only [try_convert_asset_amount, if_pos hrt]
  · intro ports data addr t ht hp hrt
    have hconv : convert_recipient data.ticker_loader ⟨addr, t, a⟩ =
        .error (.InvalidAssetAmount a p) := by
      simp only [convert_recipient, ht, if_pos, hp]
      rw [herr hrt]
    simp only [create_tx, convert_recipients, hconv]
  · intro ports now data req sa ra market h1 h2 h3 h4 h5 hrt
    have hc : try_convert_asset_amount req.send_amount sa.precision =
        .error (.InvalidAssetAmount a p) := by
      rw [h4, h5]
      exact herr hrt
    simp only [get_quote, h1, h2, h3, hc]

theorem C5_witness :
    try_convert_asset_amount (1 / 200 : Rat) 2 = .error (.InvalidAssetAmount (1 / 200) 2)
    ∧ try_convert_asset_amount (1 / 100 : Rat) 2 = .ok 1
    ∧ (create_tx Scn.ports Scn.data [⟨"addr", 1, 1 / 200⟩]).1 =
        .error (.InvalidAssetAmount (1 / 200) 2)
    ∧ (get_quote Scn.ports 0 Scn.data ⟨1, 2, 1 / 200, "ra"⟩).1 =
        .error (.InvalidAssetAmount (1 / 200) 2) := by
  have hint : asset_int_amount_ (1 / 200 : Rat) 2 = 0 := by
    unfold asset_int_amount_
    rw [show ((1 : Rat) / 200 * (10 : Rat) ^ 2) = 1 / 2 by norm_num]
    rw [show ⌊(1 / 2 : Rat)⌋ = 0 by
      rw [Int.floor_eq_zero_iff]; constructor <;> norm_num]
    rfl
  have hbad : asset_float_amount_ (asset_int_amount_ (1 / 200 : Rat) 2) 2 ≠ 1 / 200 := by
    rw [hint]
    unfold asset_float_amount_
    norm_num
  have hgood : asset_float_amount_ (asset_int_amount_ (1 / 100 : Rat) 2) 2 = 1 / 100 := by
    rw [show asset_int_amount_ (1 / 100 : Rat) 2 = 1 by
      unfold asset_int_amount_
      rw [show ((1 : Rat) / 100 * (10 : Rat) ^ 2) = 1 by norm_num]
      norm_num]
    unfold asset_float_amount_
    norm_num
  refine ⟨(C5_exact_amount_conversion (1 / 200) 2).2.2.1 hbad, ?_, ?_, ?_⟩
  · have := (C5_exact_amount_conversion (1 / 100) 2).2.1 hgood
    rw [this]
    rw [show asset_int_amount_ (1 / 100 : Rat) 2 = 1 by
      unfold asset_int_amount_
      rw [show ((1 : Rat) / 100 * (10 : Rat) ^ 2) = 1 by norm_num]
      norm_num]
  · exact (C5_exact_amount_conversion (1 / 200) 2).2.2.2.1 Scn.ports Scn.data "addr" 1
      rfl rfl hbad
  · exact (C5_exact_amount_conversion (1 / 200) 2).2.2.2.2 Scn.ports 0 Scn.data
      ⟨1, 2, 1 / 200, "ra"⟩ ⟨101, 2⟩ ⟨102, 2⟩ ⟨101, 102, AssetType.base⟩
      rfl rfl rfl rfl rfl hbad

/-! ### Address-table invariants -/

/-- Well-formedness of the address table: each entry's stored `ind` equals its
key.  `run` loads the table keyed by `addr.ind` and `new_address` inserts at
key `new_index` with `ind = new_index`, so every reachable state satisfies
this. -/
def AddrWF (m : List (Nat × Address)) : Prop :=
  ∀ e ∈ m, e.2.ind = e.1

instance (m : List (Nat × Address)) : Decidable (AddrWF m) := by
  unfold AddrWF; infer_instance

/-- Density as the spec states it: the key set is a prefix of ℕ. -/
def denseMap {α : Type} (m : List (Nat × α)) : Prop :=
  ∀ e ∈ m, ∀ j < e.1, ∃ e' ∈ m, e'.1 = j

instance {α : Type} (m : List (Nat × α)) : Decidable (denseMap m) := by
  unfold denseMap; infer_instance

theorem addrWF_insertMap {m : List (Nat × Address)} {k : Nat} {v : Address}
    (hwf : AddrWF m) (h : v.ind = k) : AddrWF (insertMap m k v) := by
  intro e he
  rcases List.mem_cons.mp he with h1 | h1
  · subst h1; exact h
  · exact hwf e (mem_of_mem_eraseKey h1)

theorem db_first_unused_gt_mem {m : List (Nat × Address)} (hwf : AddrWF m) :
    ∀ e ∈ m, e.1 < db_first_unused m := by
  intro e he
  cases m with
  | nil => simp at he
  | cons hd rest =>
    obtain ⟨x, hx⟩ := maxKeyEntry_cons_isSome hd rest
    have hub := maxKeyEntry_ubound hx e he
    have hwx := hwf x (maxKeyEntry_mem hx)
    unfold db_first_unused
    rw [hx]
    show e.1 < x.2.ind + 1
    omega

/-- Characterization of a successful `new_address`: the issued index is
`max(wallet_first_unused, db_first_unused)`, the new state's table is the old
one with the address inserted at that index, and the trace is exactly the
persistence write of that address. -/
theorem new_address_ok_spec (ports : Ports) (data : WorkerData)
    (user_note : Option String) (w : Nat) (a1 : String) (r : NewAddressResp)
    (hw : ports.newAddr false none = .ok ⟨w, a1⟩)
    (h : (new_address ports data user_note).1 = .ok r) :
    r.index = max w (db_first_unused data.addresses)
    ∧ (new_address ports data user_note).2.1.addresses =
        insertMap data.addresses r.index ⟨r.index, r.address, user_note⟩
    ∧ (new_address ports data user_note).2.2 =
        [Effect.dbAddAddress ⟨r.index, r.address, user_note⟩] := by
  simp only [new_address, hw] at h ⊢
  by_cases hlt : max w (db_first_unused data.addresses) - w < GAP_LIMIT
  · rw [if_pos hlt] at h ⊢
    cases hsec : ports.newAddr false (some (max w (db_first_unused data.addresses))) with
    | error e =>
      rw [hsec] at h
      simp at h
    | ok second =>
      rw [hsec] at h
      cases h
      exact ⟨rfl, rfl, rfl⟩
  · rw [if_neg hlt] at h
    cases h

/-- C3: `new_address` issues index `i = max(w, d)` where `w` is the wallet's
first-unused index and `d` the highest persisted index plus one (0 for an
empty table); it fails with `GapLimit` exactly when `i − w ≥ 20`; on success
the address at index `i` is inserted in memory and persisted, and two
consecutive successful calls return strictly increasing indices. -/
theorem C3_new_address_gap_limit_and_insertion (ports : Ports) (data : WorkerData)
    (user_note : Option String) (w : Nat) (a1 : String)
    (hwf : AddrWF data.addresses)
    (hw : ports.newAddr false none = .ok ⟨w, a1⟩) :
    (GAP_LIMIT ≤ max w (db_first_unused data.addresses) - w →
       (new_address ports data user_note).1 = .error .GapLimit)
    ∧ (max w (db_first_unused data.addresses) - w < GAP_LIMIT →
       (new_address ports data user_note).1 ≠ .error .GapLimit)
    ∧ (∀ r, (new_address ports data user_note).1 = .ok r →
       r.index = max w (db_first_unused data.addresses)
       ∧ lookupMap (new_address ports data user_note).2.1.addresses r.index =
           some ⟨r.index, r.address, user_note⟩
       ∧ Effect.dbAddAddress ⟨r.index, r.address, user_note⟩ ∈
           (new_address ports data user_note).2.2)
    ∧ (∀ (ports2 : Ports) (note2 : Option String) (w2 : Nat) (a2 : String)
         (r r2 : NewAddressResp),
       ports2.newAddr false none = .ok ⟨w2, a2⟩ →
       (new_address ports data user_note).1 = .ok r →
       (new_address ports2 (new_address ports data user_note).2.1 note2).1 = .ok r2 →
       r.index < r2.index) := by
  refine ⟨?_, ?_, ?_, ?_⟩
  · intro hge
    simp only [new_address, hw]
    rw [if_neg (by omega)]
  · intro hlt hcon
    simp only [new_address, hw] at hcon
    rw [if_pos hlt] at hcon
    cases hsec : ports.newAddr false (some (max w (db_first_unused data.addresses))) with
    | error e => rw [hsec] at hcon; simp at hcon
    | ok second => rw [hsec] at hcon; simp at hcon
  · intro r hr
    obtain ⟨hidx, hst, htr⟩ := new_address_ok_spec ports data user_note w a1 r hw hr
    refine ⟨hidx, ?_, ?_⟩
    · rw [hst, lookupMap_insert_self]
    · rw [htr]
      simp
  · intro ports2 note2 w2 a2 r r2 hw2 h1 h2
    obtain ⟨hidx, hst, _⟩ := new_address_ok_spec ports data user_note w a1 r hw h1
    obtain ⟨hidx2, _, _⟩ := new_address_ok_spec ports2
      (new_address ports data user_note).2.1 note2 w2 a2 r2 hw2 h2
    have hwf1 : AddrWF (new_address ports data user_note).2.1.addresses := by
      rw [hst]
      exact addrWF_insertMap hwf rfl
    have hmem : (r.index, (⟨r.index, r.address, user_note⟩ : Address)) ∈
        (new_address ports data user_note).2.1.addresses := by
      rw [hst]
      exact List.mem_cons_self _ _
    have hd2 := db_first_unused_gt_mem hwf1 _ hmem
    have hmax := le_max_right w2
      (db_first_unused (new_address ports data user_note).2.1.addresses)
    omega

theorem C3_witness :
    (new_address Scn.ports Scn.data30 none).1 = .error .GapLimit
    ∧ lookupMap (new_address Scn.ports Scn.data none).2.1.addresses 2 =
        some ⟨2, "addr", none⟩
    ∧ (2 : Nat) < 3 := by
  refine ⟨?_, ?_, ?_⟩
  · exact (C3_new_address_gap_limit_and_insertion Scn.ports Scn.data30 none 2 "addr"
      (by decide) rfl).1 (by decide)
  · exact ((C3_new_address_gap_limit_and_insertion Scn.ports Scn.data none 2 "addr"
      (by decide) rfl).2.2.1 ⟨2, "addr"⟩ (by decide)).2.1
  · exact (C3_new_address_gap_limit_and_insertion Scn.ports Scn.data none 2 "addr"
      (by decide) rfl).2.2.2 Scn.ports none 2 "addr" ⟨2, "addr"⟩ ⟨3, "addr"⟩ rfl
      (by decide) (by decide)

/-- C9 fails on the code: from the dense table `{0, 1}` with wallet
first-unused index `10`, `NewAddress` succeeds with index `10` and leaves the
non-contiguous key set `{0, 1, 10}` (exactly the situation of spec scenario
S1). -/
theorem C9_counterexample :
    denseMap Scn.data.addresses
    ∧ (new_address Scn.portsW10 Scn.data none).1 = .ok ⟨10, "w10"⟩
    ∧ ¬ denseMap (new_address Scn.portsW10 Scn.data none).2.1.addresses := by
  decide

/-- C9 (amended): the addresses table need not stay dense; what `new_address`
preserves is that, for any table whose entries satisfy `ind = key`, a
successful issuance chooses `max(wallet_first_unused, db_first_unused)`, which
is strictly greater than every stored index, so the key set grows strictly
upward, stays well-formed, and the new address is stored at the new index. -/
theorem C9_new_address_strictly_extends (ports : Ports) (data : WorkerData)
    (user_note : Option String) (w : Nat) (a1 : String) (r : NewAddressResp)
    (hwf : AddrWF data.addresses)
    (hw : ports.newAddr false none = .ok ⟨w, a1⟩)
    (h : (new_address ports data user_note).1 = .ok r) :
    r.index = max w (db_first_unused data.addresses)
    ∧ (∀ e ∈ data.addresses, e.1 < r.index)
    ∧ AddrWF (new_address ports data user_note).2.1.addresses
    ∧ lookupMap (new_address ports data user_note).2.1.addresses r.index =
        some ⟨r.index, r.address, user_note⟩ := by
  obtain ⟨hidx, hst, _⟩ := new_address_ok_spec ports data user_note w a1 r hw h
  refine ⟨hidx, ?_, ?_, ?_⟩
  · intro e he
    have h1 := db_first_unused_gt_mem hwf e he
    have h2 := le_max_right w (db_first_unused data.addresses)
    rw [hidx]
    omega
  · rw [hst]
    exact addrWF_insertMap hwf rfl
  · rw [hst, lookupMap_insert_self]

theorem C9_witness :
    lookupMap (new_address Scn.portsW10 Scn.data none).2.1.addresses 10 =
      some ⟨10, "w10", none⟩ :=
  (C9_new_address_strictly_extends Scn.portsW10 Scn.data none 10 "w10" ⟨10, "w10"⟩
    (by decide) rfl (by decide)).2.2.2

/-- C4: `AcceptQuote` fails with `NoQuote` when the quote is absent and with
`QuoteExpired` when `expires_at ≤ now`; it succeeds only while
`now < expires_at` and does not remove the quote; the coordinator's per-cycle
TTL sweep removes exactly the quotes with `expires_at ≤ now`, so after the
first cycle past `expires_at` the quote is gone. -/
theorem C4_accept_quote_ttl_discipline (ports : Ports) (now : Nat)
    (data : WorkerData) (req : AcceptQuoteReq) :
    (lookupMap data.quotes req.quote_id = none →
       (accept_quote ports now data req).1 = .error .NoQuote)
    ∧ (∀ q, lookupMap data.quotes req.quote_id = some q → q.expires_at ≤ now →
       (accept_quote ports now data req).1 = .error .QuoteExpired)
    ∧ (∀ q r, lookupMap data.quotes req.quote_id = some q →
       (accept_quote ports now data req).1 = .ok r →
       now < q.expires_at
       ∧ lookupMap (accept_quote ports now data req).2.1.quotes req.quote_id = some q)
    ∧ (NodupKeys data.quotes → ∀ (qid : QuoteId) (q : Quote),
       (lookupMap (ttl_sweep now data).quotes qid = some q ↔
          lookupMap data.quotes qid = some q ∧ now < q.expires_at))
    ∧ (NodupKeys data.quotes → ∀ (qid : QuoteId) (q : Quote),
       lookupMap data.quotes qid = some q → q.expires_at ≤ now →
       lookupMap (ttl_sweep now data).quotes qid = none) := by
  refine ⟨?_, ?_, ?_, ?_, ?_⟩
  · intro h
    simp only [accept_quote, h]
  · intro q h hexp
    have hb : q.ttl_valid now = false := by
      simp only [Quote.ttl_valid, decide_eq_false_iff_not]
      omega
    simp only [accept_quote, h, hb, Bool.false_eq_true, if_false]
  · intro q r h hr
    have hb : q.ttl_valid now = true := by
      by_cases hlt : now < q.expires_at
      · simp only [Quote.ttl_valid, decide_eq_true_eq]
        omega
      · exfalso
        have hb' : q.ttl_valid now = false := by
          simp only [Quote.ttl_valid, decide_eq_false_iff_not]
          omega
        simp only [accept_quote, h, hb', Bool.false_eq_true, if_false] at hr
        cases hr
    constructor
    · simp only [Quote.ttl_valid, decide_eq_true_eq] at hb
      exact hb
    · simp only [accept_quote, h, hb, if_true] at hr ⊢
      cases hts : ports.takerSign req.quote_id with
      | error e => rw [hts] at hr; simp at hr
      | ok resp => exact h
  · intro hnd qid q
    constructor
    · intro h
      have := (lookupMap_filter hnd (fun e => e.2.ttl_valid now) qid q).mp h
      refine ⟨this.1, ?_⟩
      have hb := this.2
      simp only [Quote.ttl_valid, decide_eq_true_eq] at hb
      exact hb
    · rintro ⟨h1, h2⟩
      refine (lookupMap_filter hnd (fun e => e.2.ttl_valid now) qid q).mpr ⟨h1, ?_⟩
      simp only [Quote.ttl_valid, decide_eq_true_eq]
      exact h2
  · intro hnd qid q h hexp
    refine lookupMap_filter_none hnd (fun e => e.2.ttl_valid now) qid q h ?_
    simp only [Quote.ttl_valid, decide_eq_false_iff_not]
    omega

theorem C4_witness :
    (accept_quote Scn.ports 50 Scn.data ⟨8, none⟩).1 = .error .NoQuote
    ∧ (accept_quote Scn.ports 100 Scn.data ⟨7, none⟩).1 = .error .QuoteExpired
    ∧ lookupMap (accept_quote Scn.ports 50 Scn.data ⟨7, none⟩).2.1.quotes 7 =
        some ⟨81, ⟨81, true⟩, 100, "q"⟩
    ∧ lookupMap (ttl_sweep 100 Scn.data).quotes 7 = none
    ∧ lookupMap (ttl_sweep 50 Scn.data).quotes 7 = some ⟨81, ⟨81, true⟩, 100, "q"⟩ := by
  refine ⟨?_, ?_, ?_, ?_, ?_⟩
  · exact (C4_accept_quote_ttl_discipline Scn.ports 50 Scn.data ⟨8, none⟩).1 (by decide)
  · exact (C4_accept_quote_ttl_discipline Scn.ports 100 Scn.data ⟨7, none⟩).2.1
      ⟨81, ⟨81, true⟩, 100, "q"⟩ (by decide) (by decide)
  · exact ((C4_accept_quote_ttl_discipline Scn.ports 50 Scn.data ⟨7, none⟩).2.2.1
      ⟨81, ⟨81, true⟩, 100, "q"⟩ ⟨81⟩ (by decide) (by decide)).2
  · exact (C4_accept_quote_ttl_discipline Scn.ports 100 Scn.data ⟨7, none⟩).2.2.2.2
      (by decide) 7 ⟨81, ⟨81, true⟩, 100, "q"⟩ (by decide) (by decide)
  · exact ((C4_accept_quote_ttl_discipline Scn.ports 50 Scn.data ⟨7, none⟩).2.2.2.1
      (by decide) 7 ⟨81, ⟨81, true⟩, 100, "q"⟩).mpr ⟨by decide, by decide⟩

/-- C8: a received `PegStatus` whose `order_id` is a known peg is fanned out
to every connected client first and only then stored, so afterwards
`peg_statuses[order_id]` holds the received value; both the response and the
notification path of `process_ws_event` run this pipeline. -/
theorem C8_peg_status_fanout_before_store (data : WorkerData) (status : PegStatus)
    (h : data.pegs.contains status.order_id = true) :
    (process_peg_status data status).2 =
      data.clients.map (fun c => Effect.notif c (Notif.pegStatus status))
        ++ [Effect.storePegStatus status]
    ∧ lookupMap (process_peg_status data status).1.peg_statuses status.order_id =
        some status
    ∧ process_ws_event data (WsEvent.pegStatusResp status) = process_peg_status data status
    ∧ process_ws_event data (WsEvent.pegStatusNotif status) =
        process_peg_status data status := by
  refine ⟨?_, ?_, rfl, rfl⟩
  · simp only [process_peg_status, send_notifs, h, if_true]
  · simp only [process_peg_status]
    exact lookupMap_insert_self _ _ _

theorem C8_witness :
    (process_peg_status Scn.data ⟨11, 5⟩).2 =
      [Effect.notif 3 (Notif.pegStatus ⟨11, 5⟩), Effect.notif 4 (Notif.pegStatus ⟨11, 5⟩),
       Effect.storePegStatus ⟨11, 5⟩]
    ∧ lookupMap (process_peg_status Scn.data ⟨11, 5⟩).1.peg_statuses 11 = some ⟨11, 5⟩ := by
  have h := C8_peg_status_fanout_before_store Scn.data ⟨11, 5⟩ (by decide)
  exact ⟨by rw [h.1]; rfl, h.2.1⟩

/-- `Scn.data` before any wallet `Utxos` event was processed. -/
def Scn.dataNoU : WorkerData :=
  { Scn.data with utxo_data := none }

/-- `Scn.ports` with a timed event stream that never matches subscription 77:
an unrelated notification and a quote notification for another subscription. -/
def Scn.portsT : Ports :=
  { Scn.ports with
      events := [(1, WsEvent.otherNotif),
                 (2, WsEvent.marketNotif (MktNotification.quote ⟨99, .error "nm"⟩))] }

/-- `Scn.ports` with a stream that disconnects during the wait. -/
def Scn.portsD : Ports :=
  { Scn.ports with events := [(1, WsEvent.otherResp), (2, WsEvent.disconnected)] }

/-- In the scenario, the amount `0.01` at precision 2 converts exactly. -/
theorem Scn.conv_centi : try_convert_asset_amount (1 / 100 : Rat) 2 = .ok 1 := by
  unfold try_convert_asset_amount
  rw [show asset_int_amount_ (1 / 100 : Rat) 2 = 1 by
    unfold asset_int_amount_
    rw [show ((1 : Rat) / 100 * (10 : Rat) ^ 2) = 1 by norm_num]
    norm_num]
  rw [if_pos (by unfold asset_float_amount_; norm_num)]

/-- Characterization of `send_tx` past both UTXO checks: the monitored tx is
persisted and inserted, both broadcasts are issued afterwards, the whole
`created_txs` table is cleared, and the response reports each side's own
outcome. -/
theorem send_tx_broadcast_spec (ports : Ports) (data : WorkerData) (req : SendTxReq)
    (created : CreatedTx) (ud : UtxoData)
    (h1 : lookupMap data.created_txs req.txid = some created)
    (h2 : data.utxo_data = some ud)
    (h3 : (created.tx.input.map (fun i => i.previous_output)).filter
        (fun o => !((ud.utxos.map Utxo.outpoint).contains o)) = [])
    (h4 : ports.checkOutpoints (created.tx.input.map (fun i => i.previous_output)) =
        .ok ()) :
    send_tx ports data req =
      (.ok ⟨broadcast_status ports.walletBroadcast, broadcast_status ports.serverBroadcast⟩,
       { data with
           monitored_txs := insertMap data.monitored_txs req.txid
             ⟨req.txid, some created.note, req.user_note⟩,
           created_txs := [] },
       [Effect.serverCheckOutpoints (created.tx.input.map (fun i => i.previous_output)),
        Effect.dbAddMonitoredTx ⟨req.txid, some created.note, req.user_note⟩,
        Effect.memAddMonitoredTx ⟨req.txid, some created.note, req.user_note⟩,
        Effect.serverBroadcastTx req.txid, Effect.walletBroadcastTx req.txid]) := by
  simp only [send_tx, h1, h2, h3, h4, new_monitored_tx, List.isEmpty_nil, if_true]
  rfl

/-- C1: whenever `SendTx` passes the created-tx lookup and both UTXO checks,
the `MonitoredTx` record `{txid, description = created.note, user_note}` is
written to persistence and inserted in memory (positions 1 and 2 of the
effect trace) strictly before the server broadcast (position 3) and the
wallet broadcast (position 4). -/
theorem C1_monitored_tx_persisted_before_broadcast (ports : Ports)
    (data : WorkerData) (req : SendTxReq) (created : CreatedTx) (ud : UtxoData)
    (h1 : lookupMap data.created_txs req.txid = some created)
    (h2 : data.utxo_data = some ud)
    (h3 : (created.tx.input.map (fun i => i.previous_output)).filter
        (fun o => !((ud.utxos.map Utxo.outpoint).contains o)) = [])
    (h4 : ports.checkOutpoints (created.tx.input.map (fun i => i.previous_output)) =
        .ok ()) :
    (send_tx ports data req).2.2.get? 1 =
        some (Effect.dbAddMonitoredTx ⟨req.txid, some created.note, req.user_note⟩)
    ∧ (send_tx ports data req).2.2.get? 2 =
        some (Effect.memAddMonitoredTx ⟨req.txid, some created.note, req.user_note⟩)
    ∧ (send_tx ports data req).2.2.get? 3 = some (Effect.serverBroadcastTx req.txid)
    ∧ (send_tx ports data req).2.2.get? 4 = some (Effect.walletBroadcastTx req.txid)
    ∧ (∀ i e, (send_tx ports data req).2.2.get? i = some e →
        (e = Effect.serverBroadcastTx req.txid ∨ e = Effect.walletBroadcastTx req.txid) →
        3 ≤ i)
    ∧ lookupMap (send_tx ports data req).2.1.monitored_txs req.txid =
        some ⟨req.txid, some created.note, req.user_note⟩ := by
  rw [send_tx_broadcast_spec ports data req created ud h1 h2 h3 h4]
  refine ⟨rfl, rfl, rfl, rfl, ?_, lookupMap_insert_self _ _ _⟩
  intro i e hi he
  match i, hi with
  | 0, hi =>
    cases hi
    rcases he with he | he <;> cases he
  | 1, hi =>
    cases hi
    rcases he with he | he <;> cases he
  | 2, hi =>
    cases hi
    rcases he with he | he <;> cases he
  | 3, _ => omega
  | 4, _ => omega
  | (n + 5), hi => cases hi

theorem C1_witness :
    (send_tx Scn.ports Scn.data ⟨55, some "un"⟩).2.2.get? 1 =
        some (Effect.dbAddMonitoredTx ⟨55, some "note55", some "un"⟩)
    ∧ (send_tx Scn.ports Scn.data ⟨55, some "un"⟩).2.2.get? 3 =
        some (Effect.serverBroadcastTx 55)
    ∧ lookupMap (send_tx Scn.ports Scn.data ⟨55, some "un"⟩).2.1.monitored_txs 55 =
        some ⟨55, some "note55", some "un"⟩ := by
  have h := C1_monitored_tx_persisted_before_broadcast Scn.ports Scn.data
    ⟨55, some "un"⟩ ⟨⟨55, [⟨⟨500, 0⟩⟩], [(999, 25)]⟩, "note55"⟩ Scn.utxos
    (by decide) rfl (by decide) rfl
  exact ⟨h.1, h.2.2.1, h.2.2.2.2.2⟩

/-- C7: past the outpoint checks, `send_tx` returns `{res_wallet, res_server}`
where each side is `Success` on `Ok` and `Error{error_msg}` on `Err` of its
own broadcast only, and the whole `created_txs` table is cleared regardless of
either outcome. -/
theorem C7_send_tx_split_outcomes (ports : Ports) (data : WorkerData)
    (req : SendTxReq) (created : CreatedTx) (ud : UtxoData)
    (h1 : lookupMap data.created_txs req.txid = some created)
    (h2 : data.utxo_data = some ud)
    (h3 : (created.tx.input.map (fun i => i.previous_output)).filter
        (fun o => !((ud.utxos.map Utxo.outpoint).contains o)) = [])
    (h4 : ports.checkOutpoints (created.tx.input.map (fun i => i.previous_output)) =
        .ok ()) :
    (send_tx ports data req).1 =
      .ok ⟨broadcast_status ports.walletBroadcast, broadcast_status ports.serverBroadcast⟩
    ∧ (send_tx ports data req).2.1.created_txs = []
    ∧ (∀ t : Txid, broadcast_status (.ok t) = .success)
    ∧ (∀ msg : String, broadcast_status (.error msg) = .error msg) := by
  rw [send_tx_broadcast_spec ports data req created ud h1 h2 h3 h4]
  exact ⟨rfl, rfl, fun _ => rfl, fun _ => rfl⟩

theorem C7_witness :
    (send_tx Scn.ports Scn.data ⟨55, none⟩).1 =
      .ok ⟨BroadcastStatus.success, BroadcastStatus.error "x"⟩
    ∧ (send_tx Scn.ports Scn.data ⟨55, none⟩).2.1.created_txs = [] := by
  have h := C7_send_tx_split_outcomes Scn.ports Scn.data ⟨55, none⟩
    ⟨⟨55, [⟨⟨500, 0⟩⟩], [(999, 25)]⟩, "note55"⟩ Scn.utxos
    (by decide) rfl (by decide) rfl
  exact ⟨h.1, h.2.1⟩

/-- C10: with no wallet `Utxos` event processed yet (`utxo_data = none`),
`GetQuote` — after ticker resolution, market lookup, amount conversion and the
change-address request — fails with `NoUtxos`, leaving the state untouched and
issuing no `StartQuotes` request; and `SendTx` on an existing created tx fails
with `UtxoCheckFailed("utxo_data is None")` without persisting a `MonitoredTx`
or broadcasting. -/
theorem C10_no_utxo_data_failures (ports : Ports) (now : Nat) (data : WorkerData)
    (req : GetQuoteReq) (req2 : SendTxReq) (sa ra : Asset) (market : MarketInfo)
    (n : Nat) (car : NewAddrResp) (created : CreatedTx)
    (hu : data.utxo_data = none)
    (h1 : try_get_asset data.ticker_loader req.send_asset = .ok sa)
    (h2 : try_get_asset data.ticker_loader req.recv_asset = .ok ra)
    (h3 : find_market data.markets sa.asset_id ra.asset_id = some market)
    (h4 : try_convert_asset_amount req.send_amount sa.precision = .ok n)
    (h5 : ports.newAddr true none = .ok car)
    (h6 : lookupMap data.created_txs req2.txid = some created) :
    get_quote ports now data req = (.error .NoUtxos, data, [])
    ∧ send_tx ports data req2 =
        (.error (.UtxoCheckFailed "utxo_data is None"), data, []) := by
  constructor
  · simp only [get_quote, h1, h2, h3, h4, h5, hu]
  · simp only [send_tx, h6, hu]

theorem C10_witness :
    get_quote Scn.ports 0 Scn.dataNoU ⟨1, 2, 1 / 100, "ra"⟩ =
      (.error .NoUtxos, Scn.dataNoU, [])
    ∧ send_tx Scn.ports Scn.dataNoU ⟨55, none⟩ =
        (.error (.UtxoCheckFailed "utxo_data is None"), Scn.dataNoU, []) :=
  C10_no_utxo_data_failures Scn.ports 0 Scn.dataNoU ⟨1, 2, 1 / 100, "ra"⟩ ⟨55, none⟩
    ⟨101, 2⟩ ⟨102, 2⟩ ⟨101, 102, AssetType.base⟩ 1 ⟨2, "addr"⟩
    ⟨⟨55, [⟨⟨500, 0⟩⟩], [(999, 25)]⟩, "note55"⟩
    rfl rfl rfl rfl Scn.conv_centi rfl (by decide)

/-- C2: on a `Success` quote status, `total_fee = server_fee + fixed_fee` and
`(expected_send, recv)` follow the four-row table on
`(base_trade_dir, fee_asset)`; the command fails with `NotEnoughAmount` unless
`expected_send` equals the converted client `send_amount`; on success the
stored quote and the response both carry the txid of the transaction inside
the fetched PSET, and the response reports `recv` converted to float. -/
theorem C2_quote_success_fee_table (ports : Ports) (now : Nat) (data : WorkerData)
    (req : GetQuoteReq) (sa ra : Asset) (dir : TradeDir) (fee : AssetType)
    (send_amount : Nat) (qid : QuoteId) (b q sf ff ttl : Nat) :
    ((match dir, fee with
      | TradeDir.sell, AssetType.base => b + (sf + ff)
      | TradeDir.sell, AssetType.quote => b
      | TradeDir.buy, AssetType.base => q
      | TradeDir.buy, AssetType.quote => q + (sf + ff)) ≠ send_amount →
      (process_quote_status ports now data req sa ra dir fee send_amount
        (.success qid b q sf ff ttl)).1 =
        .error (.NotEnoughAmount sa.asset_id send_amount
          (match dir, fee with
           | TradeDir.sell, AssetType.base => b + (sf + ff)
           | TradeDir.sell, AssetType.quote => b
           | TradeDir.buy, AssetType.base => q
           | TradeDir.buy, AssetType.quote => q + (sf + ff))))
    ∧ (∀ fetched ud,
      (match dir, fee with
       | TradeDir.sell, AssetType.base => b + (sf + ff)
       | TradeDir.sell, AssetType.quote => b
       | TradeDir.buy, AssetType.base => q
       | TradeDir.buy, AssetType.quote => q + (sf + ff)) = send_amount →
      ports.fetchQuote qid = .ok fetched →
      data.utxo_data = some ud →
      process_quote_status ports now data req sa ra dir fee send_amount
        (.success qid b q sf ff ttl) =
        (.ok ⟨qid,
           asset_float_amount_
             (match dir, fee with
              | TradeDir.sell, AssetType.base => q
              | TradeDir.sell, AssetType.quote => q - (sf + ff)
              | TradeDir.buy, AssetType.base => b - (sf + ff)
              | TradeDir.buy, AssetType.quote => b) ra.precision,
           ttl, fetched.pset.txid⟩,
         { data with quotes := (insertMap data.quotes qid
             ⟨fetched.pset.txid, sign_pset ud fetched.pset, now + fetched.ttl,
              swap_note req (asset_float_amount_
                (match dir, fee with
                 | TradeDir.sell, AssetType.base => q
                 | TradeDir.sell, AssetType.quote => q - (sf + ff)
                 | TradeDir.buy, AssetType.base => b - (sf + ff)
                 | TradeDir.buy, AssetType.quote => b) ra.precision)⟩) },
         [Effect.serverGetQuote qid])) := by
  constructor
  · intro hne
    cases dir <;> cases fee <;>
      · simp only [process_quote_status]
        rw [if_neg hne]
  · intro fetched ud heq hf hu
    cases dir <;> cases fee <;>
      · simp only [process_quote_status, hf, hu]
        rw [if_pos heq]

theorem C2_witness :
    (process_quote_status Scn.ports 0 Scn.data ⟨1, 2, 10, "ra"⟩ ⟨101, 2⟩ ⟨102, 2⟩
        TradeDir.sell AssetType.base 1000 (.success 9 900 500 80 20 30)).1 =
      .ok ⟨9, asset_float_amount_ 500 2, 30, 41⟩
    ∧ (process_quote_status Scn.ports 0 Scn.data ⟨1, 2, 10, "ra"⟩ ⟨101, 2⟩ ⟨102, 2⟩
        TradeDir.sell AssetType.base 999 (.success 9 900 500 80 20 30)).1 =
      .error (.NotEnoughAmount 101 999 1000) := by
  constructor
  · have h := (C2_quote_success_fee_table Scn.ports 0 Scn.data ⟨1, 2, 10, "ra"⟩
      ⟨101, 2⟩ ⟨102, 2⟩ TradeDir.sell AssetType.base 1000 9 900 500 80 20 30).2
      ⟨⟨41, false⟩, 30⟩ Scn.utxos (by decide) rfl rfl
    rw [h]
  · exact (C2_quote_success_fee_table Scn.ports 0 Scn.data ⟨1, 2, 10, "ra"⟩
      ⟨101, 2⟩ ⟨102, 2⟩ TradeDir.sell AssetType.base 999 9 900 500 80 20 30).1
      (by decide)

/-! ### The quote wait loop (C6) -/

/-- Folding the normal coordinator event handler over a list of events,
collecting the emitted effects (what the wait loop does with every event it
does not break on). -/
def apply_events : WorkerData → List WsEvent → WorkerData × List Effect
  | data, [] => (data, [])
  | data, e :: rest =>
    let pe := process_ws_event data e
    let cont := apply_events pe.1 rest
    (cont.1, pe.2 ++ cont.2)

theorem process_ws_event_quotes (data : WorkerData) (e : WsEvent) :
    (process_ws_event data e).1.quotes = data.quotes := by
  cases e with
  | marketNotif n => cases n <;> rfl
  | _ => rfl

theorem apply_events_quotes (evs : List WsEvent) :
    ∀ data : WorkerData, (apply_events data evs).1.quotes = data.quotes := by
  induction evs with
  | nil => intro data; rfl
  | cons e rest ih =>
    intro data
    simp only [apply_events]
    rw [ih]
    exact process_ws_event_quotes data e

/-- If no event arriving within the deadline breaks the wait, the loop times
out, having fed exactly the within-deadline prefix of the stream to the
normal event handler. -/
theorem quote_wait_timeout (sub dl : Nat) (events : List (Nat × WsEvent)) :
    ∀ data : WorkerData,
    (∀ te ∈ events, te.1 ≤ dl → wait_status sub te.2 = none) →
    quote_wait sub dl data events =
      (QuoteWaitResult.timeout,
       (apply_events data
         ((events.takeWhile (fun te => te.1 ≤ dl)).map (fun te => te.2))).1,
       (apply_events data
         ((events.takeWhile (fun te => te.1 ≤ dl)).map (fun te => te.2))).2) := by
  induction events with
  | nil => intro data _; rfl
  | cons te rest ih =>
    intro data h
    obtain ⟨t, e⟩ := te
    by_cases ht : t ≤ dl
    · have hs := h (t, e) (List.mem_cons_self _ _) ht
      have hrec := ih (process_ws_event data e).1
        (fun te hte => h te (List.mem_cons_of_mem _ hte))
      simp only [quote_wait, if_pos ht, hs, List.takeWhile, decide_eq_true ht,
        List.map_cons, apply_events]
      rw [hrec]
    · simp only [quote_wait, if_neg ht, List.takeWhile, decide_eq_false ht,
        List.map_nil, apply_events]

/-- A `Disconnected` event within the deadline, preceded only by
within-deadline non-breaking events, ends the wait with `disconnected`. -/
theorem quote_wait_disconnected (sub dl t : Nat) (pre rest : List (Nat × WsEvent)) :
    ∀ data : WorkerData,
    (∀ te ∈ pre, te.1 ≤ dl ∧ wait_status sub te.2 = none) →
    t ≤ dl →
    (quote_wait sub dl data (pre ++ (t, WsEvent.disconnected) :: rest)).1 =
      QuoteWaitResult.disconnected := by
  induction pre with
  | nil =>
    intro data _ ht
    simp only [List.nil_append, quote_wait, if_pos ht, wait_status]
  | cons te pre' ih =>
    intro data h ht
    obtain ⟨t', e'⟩ := te
    have h1 := h (t', e') (List.mem_cons_self _ _)
    simp only [List.cons_append, quote_wait, if_pos h1.1, h1.2]
    exact ih (process_ws_event data e').1
      (fun te hte => h te (List.mem_cons_of_mem _ hte)) ht

/-- C6: after a successful `StartQuotes`, if no quote notification with the
matching `quote_sub_id` (and no disconnect) arrives within the 15-second
deadline, `GetQuote` returns `WsError(Timeout)` with the quotes table
untouched, every drained event having gone through the normal handler; a
`Disconnected` event during the wait instead aborts with
`WsError(Disconnected)`. -/
theorem C6_get_quote_timeout_and_disconnect (ports : Ports) (now : Nat)
    (data : WorkerData) (req : GetQuoteReq) (sa ra : Asset) (market : MarketInfo)
    (send_amount : Nat) (car : NewAddrResp) (ud : UtxoData) (sub : Nat)
    (h1 : try_get_asset data.ticker_loader req.send_asset = .ok sa)
    (h2 : try_get_asset data.ticker_loader req.recv_asset = .ok ra)
    (h3 : find_market data.markets sa.asset_id ra.asset_id = some market)
    (h4 : try_convert_asset_amount req.send_amount sa.precision = .ok send_amount)
    (h5 : ports.newAddr true none = .ok car)
    (hu : data.utxo_data = some ud)
    (h7 : send_amount ≤
        ((ud.utxos.filter (fun u => u.asset == sa.asset_id)).map Utxo.value).sum)
    (h8 : ports.startQuotes = .ok sub) :
    ((∀ te ∈ ports.events, te.1 ≤ now + 15 → wait_status sub te.2 = none) →
      (get_quote ports now data req).1 = .error (.WsError .timeout)
      ∧ (get_quote ports now data req).2.1.quotes = data.quotes
      ∧ (get_quote ports now data req).2.1 =
          (apply_events data
            ((ports.events.takeWhile (fun te => te.1 ≤ now + 15)).map
              (fun te => te.2))).1)
    ∧ (∀ (pre : List (Nat × WsEvent)) (t : Nat) (rest : List (Nat × WsEvent)),
      ports.events = pre ++ (t, WsEvent.disconnected) :: rest →
      (∀ te ∈ pre, te.1 ≤ now + 15 ∧ wait_status sub te.2 = none) →
      t ≤ now + 15 →
      (get_quote ports now data req).1 = .error (.WsError .disconnected)) := by
  constructor
  · intro hev
    have hqw := quote_wait_timeout sub (now + 15) ports.events data hev
    have hgq : get_quote ports now data req =
        (.error (.WsError .timeout),
         (apply_events data
           ((ports.events.takeWhile (fun te => te.1 ≤ now + 15)).map
             (fun te => te.2))).1,
         Effect.serverStartQuotes ::
           (apply_events data
             ((ports.events.takeWhile (fun te => te.1 ≤ now + 15)).map
               (fun te => te.2))).2) := by
      simp only [get_quote, h1, h2, h3, h4, h5, hu, h8]
      rw [if_pos h7, hqw]
    rw [hgq]
    exact ⟨rfl, apply_events_quotes _ data, rfl⟩
  · intro pre t rest hevs hpre ht
    have hqw := quote_wait_disconnected sub (now + 15) t pre rest data hpre ht
    simp only [get_quote, h1, h2, h3, h4, h5, hu, h8]
    rw [if_pos h7, hevs]
    cases hq : quote_wait sub (now + 15) data (pre ++ (t, WsEvent.disconnected) :: rest)
      with
    | mk r drest =>
      rw [hq] at hqw
      have hr : r = QuoteWaitResult.disconnected := hqw
      subst hr
      rfl

theorem C6_witness :
    (get_quote Scn.portsT 0 Scn.data ⟨1, 2, 1 / 100, "ra"⟩).1 =
      .error (.WsError .timeout)
    ∧ (get_quote Scn.portsT 0 Scn.data ⟨1, 2, 1 / 100, "ra"⟩).2.1.quotes =
        Scn.data.quotes
    ∧ (get_quote Scn.portsD 0 Scn.data ⟨1, 2, 1 / 100, "ra"⟩).1 =
        .error (.WsError .disconnected) := by
  have hT := (C6_get_quote_timeout_and_disconnect Scn.portsT 0 Scn.data
    ⟨1, 2, 1 / 100, "ra"⟩ ⟨101, 2⟩ ⟨102, 2⟩ ⟨101, 102, AssetType.base⟩ 1 ⟨2, "addr"⟩
    Scn.utxos 77 rfl rfl rfl Scn.conv_centi rfl rfl (by decide) rfl).1 (by decide)
  have hD := (C6_get_quote_timeout_and_disconnect Scn.portsD 0 Scn.data
    ⟨1, 2, 1 / 100, "ra"⟩ ⟨101, 2⟩ ⟨102, 2⟩ ⟨101, 102, AssetType.base⟩ 1 ⟨2, "addr"⟩
    Scn.utxos 77 rfl rfl rfl Scn.conv_centi rfl rfl (by decide) rfl).2
    [(1, WsEvent.otherResp)] 2 [] rfl (by decide) (by decide)
  exact ⟨hT.1, hT.2.1, hD⟩

end SideswapManager
